import Mathlib

/-!
Shallow embedding of the openvpn-monitor management-interface parsers from
`openvpn-monitor.py`: the `>INFO` reply demarcator in `send_command`, and the
`parse_version`, `parse_state`, `parse_stats` and `parse_status` reply parsers,
together with the pieces of the Python standard library they rely on
(`str.split`, `str.splitlines`, `str.replace`, `int()`,
`ipaddress.ip_address`, `IPv4Address.is_private`, `IPv6Address.ipv4_mapped`,
`datetime.strptime`).  A Python exception (IndexError, ValueError, KeyError,
UnboundLocalError) is modelled by `Option`: `none` means the call raises.
Timestamps are modelled as decimal naturals (the replies carry integral epoch
seconds), and the GeoIP database is an explicit collaborator `IPAddr → Option
GeoRec`; each address passed to it is also recorded in a query log so that
"the geolocation collaborator was queried for address a" is expressible.
-/

set_option maxRecDepth 10000

/-- Boolean test that the first list begins with the second (pattern) list. -/
def leadsWith : List Char → List Char → Bool
  | _, [] => true
  | [], _ :: _ => false
  | c :: cs, p :: ps => c == p && leadsWith cs ps

/-- Python `s.startswith(pat)`. -/
def startsWithS (s pat : String) : Bool := leadsWith s.data pat.data

/-- Drop the pattern (first argument) from the front of the list, or `none`. -/
def dropLead? : List Char → List Char → Option (List Char)
  | [], cs => some cs
  | _ :: _, [] => none
  | p :: ps, c :: cs => if c == p then dropLead? ps cs else none

/-- Left-to-right removal of every non-overlapping occurrence of `pat`,
with a fuel argument making the recursion structural; fuel is instantiated
with the length of the scanned list, which suffices since every step consumes
at least one character (all patterns used are nonempty). -/
def eraseAllGo (pat : List Char) : Nat → List Char → List Char
  | _, [] => []
  | 0, cs => cs
  | f + 1, c :: cs =>
    match dropLead? pat (c :: cs) with
    | some r => eraseAllGo pat f r
    | none => c :: eraseAllGo pat f cs

/-- Python `s.replace(pat, '')`, also the effect of `re.sub` on a literal
pattern with empty replacement. -/
def eraseAllS (s pat : String) : String :=
  String.mk (eraseAllGo pat.data s.data.length s.data)

/-- Characters that do not end a line. -/
def lineBreakFree (c : Char) : Bool := !(c == '\n' || c == '\r')

/-- Python `str.splitlines` (modelled for the boundaries occurring in
management-interface replies: `\n`, `\r`, `\r\n`); no trailing empty line. -/
def splitlinesGo : Nat → List Char → List (List Char)
  | _, [] => []
  | 0, cs => [cs]
  | f + 1, cs =>
    let line := cs.takeWhile lineBreakFree
    match cs.drop line.length with
    | [] => [line]
    | '\r' :: '\n' :: r => line :: splitlinesGo f r
    | _ :: r => line :: splitlinesGo f r

/-- Python `s.splitlines()`. -/
def splitlinesS (s : String) : List String :=
  (splitlinesGo s.data.length s.data).map String.mk

/-- Python `s.split(c)` for a single-character separator: never empty,
`"".split(c) == ['']`. -/
def splitS (c : Char) (s : String) : List String :=
  (s.data.splitOn c).map String.mk

/-- Decimal digit value. -/
def digVal? (c : Char) : Option Nat :=
  if '0' ≤ c ∧ c ≤ '9' then some (c.toNat - 48) else none

/-- Accumulating decimal parse; fails on any non-digit. -/
def decDigitsGo (acc : Nat) : List Char → Option Nat
  | [] => some acc
  | c :: cs =>
    match digVal? c with
    | some d => decDigitsGo (acc * 10 + d) cs
    | none => none

/-- Nonempty all-decimal-digits parse. -/
def decDigits? : List Char → Option Nat
  | [] => none
  | cs => decDigitsGo 0 cs

/-- Python `str.strip()` whitespace characters. -/
def pySpace (c : Char) : Bool :=
  c == ' ' || c == '\t' || c == '\n' || c == '\r' || c == '\x0b' || c == '\x0c'

/-- Python `int(s)`: optional surrounding whitespace, optional sign, digits. -/
def parseIntS (s : String) : Option Int :=
  let cs := ((s.data.dropWhile pySpace).reverse.dropWhile pySpace).reverse
  match cs with
  | '-' :: ds => (decDigits? ds).map (fun n => -(n : Int))
  | '+' :: ds => (decDigits? ds).map (fun n => (n : Int))
  | ds => (decDigits? ds).map (fun n => (n : Int))

/-- Python `float(s)` as used on the integral epoch timestamps of the
management interface: surrounding whitespace plus decimal digits. -/
def parseNatS (s : String) : Option Nat :=
  decDigits? (((s.data.dropWhile pySpace).reverse.dropWhile pySpace).reverse)

/-- Hexadecimal digit value. -/
def hexVal? (c : Char) : Option Nat :=
  if '0' ≤ c ∧ c ≤ '9' then some (c.toNat - 48)
  else if 'a' ≤ c ∧ c ≤ 'f' then some (c.toNat - 87)
  else if 'A' ≤ c ∧ c ≤ 'F' then some (c.toNat - 55)
  else none

/-- Accumulating hexadecimal parse. -/
def hexGo (acc : Nat) : List Char → Option Nat
  | [] => some acc
  | c :: cs =>
    match hexVal? c with
    | some d => hexGo (acc * 16 + d) cs
    | none => none

/-- An IPv6 hextet: one to four hexadecimal digits. -/
def hextet? (cs : List Char) : Option Nat :=
  if cs.isEmpty then none
  else if 4 < cs.length then none
  else hexGo 0 cs

/-- An IPv4 dotted-quad octet: one to three decimal digits, value at most
255 (the Python-3.5-era `ipaddress` accepted leading zeroes). -/
def octet? (cs : List Char) : Option Nat :=
  if 3 < cs.length then none
  else
    match decDigits? cs with
    | some n => if n ≤ 255 then some n else none
    | none => none

/-- `ipaddress.IPv4Address(s)` as a 32-bit natural. -/
def parseIPv4? (cs : List Char) : Option Nat :=
  match cs.splitOn '.' with
  | [a, b, c, d] =>
    match octet? a, octet? b, octet? c, octet? d with
    | some a', some b', some c', some d' =>
      some (((a' * 256 + b') * 256 + c') * 256 + d')
    | _, _, _, _ => none
  | _ => none

/-- A colon-separated group of an IPv6 literal: empty, a hextet, or invalid. -/
inductive GTok where
  | emp : GTok
  | num : Nat → GTok
  | bad : GTok
deriving DecidableEq

/-- Classify one colon-separated group. -/
def gtokOf (cs : List Char) : GTok :=
  if cs.isEmpty then .emp
  else
    match hextet? cs with
    | some n => .num n
    | none => .bad

/-- Whether a group token is the empty group. -/
def isEmp : GTok → Bool
  | .emp => true
  | _ => false

/-- Numeric value of a group token, if it has one. -/
def gnum? : GTok → Option Nat
  | .num n => some n
  | _ => none

/-- All groups must be numeric. -/
def allNum? (ts : List GTok) : Option (List Nat) := ts.mapM gnum?

/-- Replace a trailing dotted-quad group of an IPv6 literal by its two
16-bit groups, mirroring CPython's `_ip_int_from_string`. -/
def v6Toks (parts : List (List Char)) : Option (List GTok) :=
  match parts.getLast? with
  | none => none
  | some last =>
    if last.contains '.' then
      match parseIPv4? last with
      | some v => some (parts.dropLast.map gtokOf ++ [GTok.num (v / 65536), GTok.num (v % 65536)])
      | none => none
    else some (parts.map gtokOf)

/-- Fold 16-bit groups into an accumulated value. -/
def foldGroups (init : Nat) (gs : List Nat) : Nat :=
  gs.foldl (fun a g => a * 65536 + g) init

/-- Assemble the 128-bit value from the group tokens, handling the single
`::` gap exactly as CPython's `_ip_int_from_string` does. -/
def v6Assemble (toks : List GTok) : Option Nat :=
  let n := toks.length
  let interior := ((toks.enum).filter
    (fun p => decide (1 ≤ p.1) && decide (p.1 ≤ n - 2) && isEmp p.2)).map Prod.fst
  match interior with
  | [] =>
    if n = 8 then (allNum? toks).map (foldGroups 0) else none
  | [i] =>
    let headEmp := match toks.head? with | some t => isEmp t | none => false
    let lastEmp := match toks.getLast? with | some t => isEmp t | none => false
    if headEmp && decide (i ≠ 1) then none
    else if lastEmp && decide (n - i - 1 ≠ 1) then none
    else
      let hi := if headEmp then i - 1 else i
      let lo := if lastEmp then n - i - 2 else n - i - 1
      if 8 - hi - lo < 1 then none
      else
        match allNum? (toks.take hi), allNum? (toks.drop (n - lo)) with
        | some hs, some ls =>
          some (foldGroups (foldGroups 0 hs * 65536 ^ (8 - hi - lo)) ls)
        | _, _ => none
  | _ => none

/-- `ipaddress.IPv6Address(s)` as a 128-bit natural. -/
def parseIPv6? (cs : List Char) : Option Nat :=
  let parts := cs.splitOn ':'
  if parts.length < 3 then none
  else (v6Toks parts).bind v6Assemble

/-- An IP address: the value returned by `ipaddress.ip_address`. -/
inductive IPAddr where
  | v4 : Nat → IPAddr
  | v6 : Nat → IPAddr
deriving DecidableEq

/-- `ipaddress.ip_address(s)`: try IPv4, then IPv6, else ValueError. -/
def ip_address? (s : String) : Option IPAddr :=
  match parseIPv4? s.data with
  | some n => some (.v4 n)
  | none => (parseIPv6? s.data).map .v6

/-- `IPv6Address.ipv4_mapped`: defined iff the upper 96 bits are `::ffff:0:0`. -/
def ipv4_mapped (a : Nat) : Option Nat :=
  if a / 2 ^ 32 = 0xffff then some (a % 2 ^ 32) else none

/-- Dotted-quad value as a 32-bit natural. -/
def mkIPv4 (a b c d : Nat) : Nat := ((a * 256 + b) * 256 + c) * 256 + d

/-- Membership of a 32-bit value in an IPv4 network given by base and CIDR. -/
def inNet4 (n a b c d p : Nat) : Bool :=
  n / 2 ^ (32 - p) == mkIPv4 a b c d / 2 ^ (32 - p)

/-- `IPv4Address.is_private`: the `_private_networks` registry of the Python 3
`ipaddress` module. -/
def v4Private (n : Nat) : Bool :=
  inNet4 n 0 0 0 0 8 || inNet4 n 10 0 0 0 8 || inNet4 n 127 0 0 0 8 ||
  inNet4 n 169 254 0 0 16 || inNet4 n 172 16 0 0 12 || inNet4 n 192 0 0 0 29 ||
  inNet4 n 192 0 0 170 31 || inNet4 n 192 0 2 0 24 || inNet4 n 192 168 0 0 16 ||
  inNet4 n 198 18 0 0 15 || inNet4 n 198 51 100 0 24 || inNet4 n 203 0 113 0 24 ||
  inNet4 n 240 0 0 0 4 || inNet4 n 255 255 255 255 32

/-- Membership of a 128-bit value in an IPv6 network given by base and CIDR. -/
def inNet6 (n base p : Nat) : Bool :=
  n / 2 ^ (128 - p) == base / 2 ^ (128 - p)

/-- `IPv6Address.is_private`: the `_private_networks` registry of the Python 3
`ipaddress` module. -/
def v6Private (n : Nat) : Bool :=
  inNet6 n 1 128 || inNet6 n 0 128 || inNet6 n (0xffff * 2 ^ 32) 96 ||
  inNet6 n (0x100 * 2 ^ 112) 64 || inNet6 n (0x2001 * 2 ^ 112) 23 ||
  inNet6 n (0x2001 * 2 ^ 112 + 0x2 * 2 ^ 96) 48 ||
  inNet6 n (0x2001 * 2 ^ 112 + 0xdb8 * 2 ^ 96) 32 ||
  inNet6 n (0x2001 * 2 ^ 112 + 0x10 * 2 ^ 96) 28 ||
  inNet6 n (0xfc00 * 2 ^ 112) 7 || inNet6 n (0xfe80 * 2 ^ 112) 10

/-- `addr.is_private` on either address kind. -/
def IPAddr.is_private : IPAddr → Bool
  | .v4 n => v4Private n
  | .v6 n => v6Private n

/-- Weekday abbreviations accepted by `strptime` directive `%a`. -/
def weekdays : List String := ["Mon", "Tue", "Wed", "Thu", "Fri", "Sat", "Sun"]

/-- Month abbreviations accepted by `strptime` directive `%b`. -/
def months : List String :=
  ["Jan", "Feb", "Mar", "Apr", "May", "Jun", "Jul", "Aug", "Sep", "Oct", "Nov", "Dec"]

/-- Index of a string in a list. -/
def idxOf? (x : String) : List String → Option Nat
  | [] => none
  | y :: ys => if y = x then some 0 else (idxOf? x ys).map (· + 1)

/-- Result of `datetime.strptime(s, "%a %b %d %H:%M:%S %Y")`. -/
structure HumanDate where
  wd : Nat
  mon : Nat
  day : Nat
  hour : Nat
  minute : Nat
  sec : Nat
  year : Nat
deriving DecidableEq

/-- One- or two-digit decimal field. -/
def twoDigit? (s : String) : Option Nat :=
  if 2 < s.data.length then none else decDigits? s.data

/-- `datetime.strptime(s, "%a %b %d %H:%M:%S %Y")`, the format used by
`get_date` for the version-1 status dialect. -/
def parseHuman? (s : String) : Option HumanDate :=
  match splitS ' ' s with
  | [w, mo, d, t, y] =>
    match idxOf? w weekdays, idxOf? mo months, twoDigit? d with
    | some wi, some mi, some dn =>
      if dn < 1 ∨ 31 < dn then none
      else
        match splitS ':' t with
        | [hh, mm, ss] =>
          match twoDigit? hh, twoDigit? mm, twoDigit? ss with
          | some h, some m, some s' =>
            if 23 < h ∨ 59 < m ∨ 61 < s' then none
            else if y.data.length = 4 then
              (decDigits? y.data).map (fun yr => ⟨wi, mi, dn, h, m, s', yr⟩)
            else none
          | _, _, _ => none
        | _ => none
    | _, _, _ => none
  | _ => none

/-- A timestamp produced by `get_date`: either an epoch value (`uts=True`)
or a parsed human-readable date. -/
inductive DateVal where
  | uts : Nat → DateVal
  | human : HumanDate → DateVal
deriving DecidableEq

/-- A value stored in one of the Python session/state dictionaries. -/
inductive DVal where
  | str : String → DVal
  | ip : IPAddr → DVal
  | int : Int → DVal
  | date : DateVal → DVal
deriving DecidableEq

/-- Python `dict` assignment `d[k] = v`: replace in place, else append. -/
def aset {α : Type} : List (String × α) → String → α → List (String × α)
  | [], k, v => [(k, v)]
  | (k0, v0) :: rest, k, v =>
    if k0 = k then (k0, v) :: rest else (k0, v0) :: aset rest k v

/-- Python `dict` lookup `d[k]`, `none` meaning KeyError. -/
def aget? {α : Type} : List (String × α) → String → Option α
  | [], _ => none
  | (k0, v0) :: rest, k => if k0 = k then some v0 else aget? rest k

/-- Python `k in d`. -/
def amem {α : Type} (d : List (String × α)) (k : String) : Bool :=
  (aget? d k).isSome

/-- A session dictionary (`session` in `parse_status`). -/
abbrev SDict := List (String × DVal)

/-- The sessions mapping returned by `parse_status`. -/
abbrev Sessions := List (String × SDict)

/-- The `country_code`/`city`/`country_name`/`longitude`/`latitude` record
returned by the GeoIP collaborator (`gi.record_by_addr`); the values are
never inspected, only stored into the session dictionary. -/
structure GeoRec where
  country_code : DVal
  city : DVal
  country_name : DVal
  longitude : DVal
  latitude : DVal
deriving DecidableEq

/-- The record parsed by `parse_state` from one data line. -/
structure StateRec where
  up_since : Nat
  connected : String
  success : String
  local_ip : Option IPAddr
  remote_ip : Option IPAddr
  mode : String
deriving DecidableEq

/-- Whether `parse_state` skips a line, judged on its first comma field. -/
def stateSkip (p0 : String) : Bool :=
  startsWithS p0 ">INFO" || startsWithS p0 "END" || startsWithS p0 ">CLIENT"

/-- The per-line body of `parse_state`: all six entries of the state dict are
assigned from the current line (`none` models an exception). -/
def stateLine? (parts : List String) : Option StateRec := do
  let up ← parseNatS (parts.headD "")
  let p1 ← parts.get? 1
  let p2 ← parts.get? 2
  let p3 ← parts.get? 3
  let lip ← if p3 = "" then some none else (ip_address? p3).map some
  let p4 ← parts.get? 4
  let rm ← if p4 = "" then some (none, "Server")
           else (ip_address? p4).map (fun a => (some a, "Client"))
  pure ⟨up, p1, p2, lip, rm.1, rm.2⟩

/-- One iteration of the `parse_state` loop; the accumulator is the state
dict, `none` standing for the initial empty dict. -/
def stateStep (acc : Option StateRec) (line : String) : Option (Option StateRec) :=
  let parts := splitS ',' line
  if stateSkip (parts.headD "") then some acc
  else (stateLine? parts).map some

/-- Fold of `stateStep` over the reply lines. -/
def stateFold : Option StateRec → List String → Option (Option StateRec)
  | acc, [] => some acc
  | acc, l :: ls =>
    match stateStep acc l with
    | some acc' => stateFold acc' ls
    | none => none

/-- `OpenvpnMonitor.parse_state`: outer `none` is an exception, inner `none`
the empty dict returned when no data line occurs. -/
def parse_state (data : String) : Option (Option StateRec) :=
  stateFold none (splitlinesS data)

/-- Whether a line is a data line for `parse_state`. -/
def stateKeep (l : String) : Bool := !stateSkip ((splitS ',' l).headD "")

/-- The data lines of a state reply: those whose first comma field does not
start with `>INFO`, `END` or `>CLIENT`. -/
def stateDataLines (data : String) : List String :=
  (splitlinesS data).filter stateKeep

/-- The record parsed by `parse_stats` from a `load-stats` reply. -/
structure StatsRec where
  nclients : Int
  bytesin : Int
  bytesout : Int
deriving DecidableEq

/-- `OpenvpnMonitor.parse_stats`. -/
def parse_stats (data : String) : Option StatsRec := do
  let parts := splitS ',' (eraseAllS data "SUCCESS: ")
  let p0 ← parts.get? 0
  let n ← parseIntS (eraseAllS p0 "nclients=")
  let p1 ← parts.get? 1
  let bi ← parseIntS (eraseAllS p1 "bytesin=")
  let p2 ← parts.get? 2
  let bo ← parseIntS (eraseAllS (eraseAllS p2 "bytesout=") "\r\n")
  pure ⟨n, bi, bo⟩

/-- The scanning loop of `parse_version`: the first line starting with
`OpenVPN` is returned with every occurrence of `"OpenVPN Version: "`
removed (`str.replace`); `none` models the implicit `return None`. -/
def versionScan : List String → Option String
  | [] => none
  | l :: ls =>
    if startsWithS l "OpenVPN" then some (eraseAllS l "OpenVPN Version: ")
    else versionScan ls

/-- `OpenvpnMonitor.parse_version`. -/
def parse_version (data : String) : Option String :=
  versionScan (splitlinesS data)

/-- Modelled from the spec: "the first line beginning with the literal token
`OpenVPN` has that prefix stripped and the remainder returned as the version
string".  Used only to compare the specified behaviour with `parse_version`. -/
def versionSpecScan (data : String) : Option String :=
  ((splitlinesS data).find? (fun l => startsWithS l "OpenVPN")).map
    (fun l => String.mk (l.data.drop 7))

/-- Consume the tail of one `>INFO` line: greedy `(.)*` then `\r\n`; the
terminator's newline is necessarily the first newline of the remainder. -/
def termSplit? : List Char → Option (List Char)
  | '\r' :: '\n' :: rest => some rest
  | '\n' :: _ => none
  | _ :: rest => termSplit? rest
  | [] => none

/-- A match of the pattern `>INFO(.)*\r\n` starting here; returns the suffix
after the match. -/
def infoSplit? (cs : List Char) : Option (List Char) :=
  match dropLead? ['>', 'I', 'N', 'F', 'O'] cs with
  | some rest => termSplit? rest
  | none => none

/-- Left-to-right scan of `re.sub('>INFO(.)*\r\n', '', data)`: on a match,
resume after the match; fuel is the scanned length (each step consumes at
least one character). -/
def stripGo : Nat → List Char → List Char
  | _, [] => []
  | 0, cs => cs
  | f + 1, c :: cs =>
    match infoSplit? (c :: cs) with
    | some r => stripGo f r
    | none => c :: stripGo f cs

/-- The `>INFO`-line stripping applied by `send_command` to each received
chunk. -/
def stripInfo (s : String) : String := String.mk (stripGo s.data.length s.data)

/-- Whether a match of `>INFO(.)*\r\n` starts anywhere in the list. -/
def hasInfoGo : List Char → Bool
  | [] => false
  | c :: cs => (infoSplit? (c :: cs)).isSome || hasInfoGo cs

/-- Whether the stripping pattern still matches somewhere in `s`. -/
def hasInfo (s : String) : Bool := hasInfoGo s.data

/-- The loop state of `parse_status`.  `remote_ip_address` models the Python
local variable of that name, which is assigned only in the version-3 client
branch and persists across loop iterations; reading it while it is still
`none` is an UnboundLocalError.  `uuid_ctr` indexes the supply of fresh
tokens modelling `str(uuid4())`, `geo_log` records every address passed to
the GeoIP collaborator, and `done` records that a `GLOBAL` line broke the
loop. -/
structure StatusState where
  client_section : Bool
  routes_section : Bool
  status_version : Nat
  sessions : Sessions
  client_session : SDict
  remote_ip_address : Option IPAddr
  uuid_ctr : Nat
  geo_log : List IPAddr
  done : Bool
deriving DecidableEq

/-- The initial loop state of `parse_status`. -/
def initStatus : StatusState :=
  { client_section := false, routes_section := false, status_version := 1,
    sessions := [], client_session := [], remote_ip_address := none,
    uuid_ctr := 0, geo_log := [], done := false }

/-- The `isinstance(..., IPv6Address) and ipv4_mapped is not None`
normalisation applied before storing `session['remote_ip']`. -/
def normalizeAddr : IPAddr → IPAddr
  | .v4 n => .v4 n
  | .v6 a =>
    match ipv4_mapped a with
    | some m => .v4 m
    | none => .v6 a

/-- `session['port'] = int(port) if port else ''` where `port` is either a
split-off string or Python `None`. -/
def portVal? : Option String → Option DVal
  | none => some (.str "")
  | some p => if p = "" then some (.str "") else (parseIntS p).map DVal.int

/-- The version-3 remote field handling: split `host:port` only when the
field contains exactly one colon. -/
def remoteOf (rem : String) : String × Option String :=
  if rem.data.count ':' = 1 then
    match rem.data.splitOn ':' with
    | [a, b] => (String.mk a, some (String.mk b))
    | _ => (rem, none)
  else (rem, none)

/-- Python tuple unpacking `a, b = s.split(c)`: exactly two parts or a
ValueError. -/
def split2? (c : Char) (s : String) : Option (String × String) :=
  match s.data.splitOn c with
  | [a, b] => some (String.mk a, String.mk b)
  | _ => none

/-- The code shared by both client-row dialects (lines 309-331 of the
source): set `location`, store the (possibly IPv4-mapped-normalised)
`remote_ip` and `port`, then either tag private addresses `RFC1918` or
query the GeoIP collaborator; returns the enriched dict together with the
list of addresses passed to the collaborator. -/
def commonEnrich (geo : IPAddr → Option GeoRec) (d0 : SDict) (ra : IPAddr)
    (portOpt : Option String) : Option (SDict × List IPAddr) :=
  let d1 := aset d0 "location" (.str "Unknown")
  let addr := normalizeAddr ra
  let d2 := aset d1 "remote_ip" (.ip addr)
  match portVal? portOpt with
  | none => none
  | some pv =>
    let d3 := aset d2 "port" pv
    if addr.is_private then some (aset d3 "location" (.str "RFC1918"), [])
    else
      match geo addr with
      | some g =>
        let d4 := aset d3 "location" g.country_code
        let d5 := aset d4 "city" g.city
        let d6 := aset d5 "country_name" g.country_name
        let d7 := aset d6 "longitude" g.longitude
        let d8 := aset d7 "latitude" g.latitude
        some (d8, [addr])
      | none => some (d3, [addr])

/-- The version-1 client branch: key is the raw `remoteIP:port` field; the
shared enrichment then reads the loop variable `remote_ip_address`, which a
pure version-1 reply never assigned (`ra?` is `none`: UnboundLocalError). -/
def v1Client (geo : IPAddr → Option GeoRec) (ra? : Option IPAddr)
    (p0 p1 p2 p3 p4 : String) : Option (String × SDict × List IPAddr) := do
  let d0 : SDict := [("username", .str p0)]
  let rp ← split2? ':' p1
  let br ← parseIntS p2
  let d1 := aset d0 "bytes_recv" (.int br)
  let bs ← parseIntS p3
  let d2 := aset d1 "bytes_sent" (.int bs)
  let cd ← parseHuman? p4
  let d3 := aset d2 "connected_since" (.date (.human cd))
  let ra ← ra?
  let dl ← commonEnrich geo d3 ra (some rp.2)
  pure (p1, dl.1, dl.2)

/-- The result of one version-3 client row. -/
structure V3Out where
  key : String
  sess : SDict
  ra : IPAddr
  usedUuid : Bool
  glog : List IPAddr
deriving DecidableEq

/-- The `session['local_ip']` value of a version-3 client row: the parsed
local tunnel IP when the field is nonempty, else the empty string. -/
def localVal? (loc : String) : Option DVal :=
  if loc = "" then some (.str "") else (ip_address? loc).map DVal.ip

/-- The version-3 client branch: key is the local tunnel IP when nonempty,
else the next fresh token `uuids ctr`. -/
def v3Client (geo : IPAddr → Option GeoRec) (uuids : Nat → String) (ctr : Nat)
    (u rem loc br bs ts : String) : Option V3Out := do
  let ra ← ip_address? (remoteOf rem).1
  let lv ← localVal? loc
  let br' ← parseIntS br
  let bs' ← parseIntS bs
  let ts' ← parseNatS ts
  let d0 : SDict := [("username", .str u)]
  let d5 := aset (aset (aset (aset (aset d0 "local_ip" lv)
    "bytes_recv" (.int br')) "bytes_sent" (.int bs'))
    "connected_since" (.date (.uts ts'))) "last_seen" (.date (.uts ts'))
  let dl ← commonEnrich geo d5 ra (remoteOf rem).2
  pure ⟨if loc = "" then uuids ctr else loc, dl.1, ra, loc == "", dl.2⟩

/-- The version-1 routing-table branch: `sessions[parts[2]]` must exist
(else KeyError); its `local_ip` and `last_seen` are updated. -/
def v1Route (ss : Sessions) (p0 p2 p3 : String) : Option Sessions := do
  let lip ← ip_address? p0
  let d ← aget? ss p2
  let d1 := aset d "local_ip" (.ip lip)
  let ls ← parseHuman? p3
  let d2 := aset d1 "last_seen" (.date (.human ls))
  pure (aset ss p2 d2)

/-- The version-3 routing-table branch: an unknown key is skipped. -/
def v3Route (ss : Sessions) (p1 : String) (parts : List String) : Option Sessions :=
  if amem ss p1 then do
    let p5 ← parts.get? 5
    let t ← parseNatS p5
    let d ← aget? ss p1
    pure (aset ss p1 (aset d "last_seen" (.date (.uts t))))
  else some ss

/-- The dispatch over one already-split status line, mirroring the body of
the `parse_status` loop in source order. -/
def processParts (geo : IPAddr → Option GeoRec) (uuids : Nat → String)
    (st : StatusState) (parts : List String) : Option StatusState :=
  let p0 := parts.headD ""
  if startsWithS p0 "GLOBAL" then some { st with done := true }
  else if p0 = "HEADER" then
    match parts.get? 1 with
    | none => none
    | some p1 =>
      let st1 := { st with status_version := 3 }
      let st2 := if p1 = "CLIENT_LIST" then
          { st1 with client_section := true, routes_section := false } else st1
      let st3 := if p1 = "ROUTING_TABLE" then
          { st2 with client_section := false, routes_section := true } else st2
      some st3
  else if p0 = "Updated" then some st
  else if p0 = "Common Name" then
    some { st with status_version := 1, client_section := true, routes_section := false }
  else if p0 = "ROUTING TABLE" ∨ p0 = "Virtual Address" then
    some { st with status_version := 1, client_section := false, routes_section := true }
  else if startsWithS p0 ">CLIENT" then some st
  else if p0 = "TUN/TAP read bytes" then do
    let p1 ← parts.get? 1
    let n ← parseIntS p1
    pure { st with client_session := aset st.client_session "tuntap_read" (.int n) }
  else if p0 = "TUN/TAP write bytes" then do
    let p1 ← parts.get? 1
    let n ← parseIntS p1
    pure { st with client_session := aset st.client_session "tuntap_write" (.int n) }
  else if p0 = "TCP/UDP read bytes" then do
    let p1 ← parts.get? 1
    let n ← parseIntS p1
    pure { st with client_session := aset st.client_session "tcpudp_read" (.int n) }
  else if p0 = "TCP/UDP write bytes" then do
    let p1 ← parts.get? 1
    let n ← parseIntS p1
    pure { st with client_session := aset st.client_session "tcpudp_write" (.int n) }
  else if p0 = "Auth read bytes" then do
    let p1 ← parts.get? 1
    let n ← parseIntS p1
    let cs := aset st.client_session "auth_read" (.int n)
    pure { st with client_session := cs, sessions := aset st.sessions "Client" cs }
  else do
    let stc ←
      if st.client_section && !st.routes_section then
        if st.status_version = 1 then do
          let p1 ← parts.get? 1
          let p2 ← parts.get? 2
          let p3 ← parts.get? 3
          let p4 ← parts.get? 4
          let kdl ← v1Client geo st.remote_ip_address p0 p1 p2 p3 p4
          pure { st with sessions := aset st.sessions kdl.1 kdl.2.1,
                         geo_log := st.geo_log ++ kdl.2.2 }
        else if st.status_version = 3 then do
          let p1 ← parts.get? 1
          let p2 ← parts.get? 2
          let p3 ← parts.get? 3
          let p4 ← parts.get? 4
          let p5 ← parts.get? 5
          let p7 ← parts.get? 7
          let out ← v3Client geo uuids st.uuid_ctr p1 p2 p3 p4 p5 p7
          pure { st with sessions := aset st.sessions out.key out.sess,
                         remote_ip_address := some out.ra,
                         uuid_ctr := st.uuid_ctr + (if out.usedUuid then 1 else 0),
                         geo_log := st.geo_log ++ out.glog }
        else pure st
      else pure st
    if stc.routes_section && !stc.client_section then
      if stc.status_version = 1 then do
        let p2 ← parts.get? 2
        let p3 ← parts.get? 3
        let ss ← v1Route stc.sessions p0 p2 p3
        pure { stc with sessions := ss }
      else if stc.status_version = 3 then do
        let p1 ← parts.get? 1
        let ss ← v3Route stc.sessions p1 parts
        pure { stc with sessions := ss }
      else pure stc
    else pure stc

/-- One iteration of the `parse_status` loop: split the line on comma if it
contains one, else on tab; a line after a `GLOBAL` break is ignored. -/
def processStatusLine (geo : IPAddr → Option GeoRec) (uuids : Nat → String)
    (st : StatusState) (line : String) : Option StatusState :=
  if st.done then some st
  else processParts geo uuids st
    (if line.data.contains ',' then splitS ',' line else splitS '\t' line)

/-- Fold of `processStatusLine` over reply lines. -/
def statusFold (geo : IPAddr → Option GeoRec) (uuids : Nat → String) :
    StatusState → List String → Option StatusState
  | st, [] => some st
  | st, l :: ls =>
    match processStatusLine geo uuids st l with
    | some st' => statusFold geo uuids st' ls
    | none => none

/-- `OpenvpnMonitor.parse_status`, returning the sessions mapping and the
log of addresses passed to the GeoIP collaborator. -/
def parse_status (geo : IPAddr → Option GeoRec) (uuids : Nat → String)
    (data : String) : Option (Sessions × List IPAddr) :=
  (statusFold geo uuids initStatus (splitlinesS data)).map
    (fun st => (st.sessions, st.geo_log))

/-- The session keys of a `parse_status` result. -/
def statusKeys (r : Option (Sessions × List IPAddr)) : Option (List String) :=
  r.map (fun p => p.1.map Prod.fst)

/-- One field of one session of a `parse_status` result. -/
def statusField (r : Option (Sessions × List IPAddr)) (key fld : String) :
    Option DVal :=
  match r with
  | some (ss, _) =>
    match aget? ss key with
    | some d => aget? d fld
    | none => none
  | none => none

/-- One version-3 client row of a status reply, as raw fields. -/
structure V3Row where
  user : String
  remote : String
  localip : String
  brecv : String
  bsent : String
  tstamp : String

/-- The comma fields of a version-3 client line (field 6 is the unused
`parts[6]` column of the wire format). -/
def rowLineParts (r : V3Row) : List String :=
  ["CLIENT_LIST", r.user, r.remote, r.localip, r.brecv, r.bsent, "", r.tstamp]

/-- A version-3 client row all of whose fields parse (no exception while the
row is processed): remote host is an address, a nonempty local tunnel IP is
an address, byte counters and epoch parse, and the split-off port parses. -/
def rowOK (r : V3Row) : Bool :=
  (ip_address? (remoteOf r.remote).1).isSome &&
  (localVal? r.localip).isSome &&
  (parseIntS r.brecv).isSome && (parseIntS r.bsent).isSome &&
  (parseNatS r.tstamp).isSome && (portVal? (remoteOf r.remote).2).isSome

/-- The session key assigned to each row in order, threading the fresh-token
counter: a nonempty local tunnel IP is its own key, an empty one consumes
the next fresh token. -/
def expectedKeys (uuids : Nat → String) : Nat → List V3Row → List String
  | _, [] => []
  | c, r :: rs =>
    if r.localip = "" then uuids c :: expectedKeys uuids (c + 1) rs
    else r.localip :: expectedKeys uuids c rs

/-- The nonempty local tunnel IPs of a row list, in order. -/
def rowLocals (rows : List V3Row) : List String :=
  rows.filterMap (fun r => if r.localip = "" then none else some r.localip)

/-- Each reply line splits (on comma) into exactly the fields of the
corresponding row. -/
def linesMatch : List String → List V3Row → Bool
  | [], [] => true
  | l :: ls, r :: rs =>
    l.data.contains ',' && (splitS ',' l == rowLineParts r) && linesMatch ls rs
  | _, _ => false

/-- C1: for the spec's end-to-end V3 example reply (header, one client row
for `alice` at `203.0.113.5:53211` with local IP `10.8.0.6`, a routing
header and one routing row for `10.8.0.6`), `parse_status` returns exactly
one session, keyed `"10.8.0.6"`, with `bytes_recv = 1000`,
`bytes_sent = 2000`, `connected_since` = epoch 1700000000 and `last_seen` =
epoch 1700000500 — for every geolocation collaborator and every fresh-token
supply. -/
theorem c1_v3_end_to_end :
    ∀ (geo : IPAddr → Option GeoRec) (uuids : Nat → String),
      statusKeys (parse_status geo uuids
          "HEADER,CLIENT_LIST,...\r\nCLIENT_LIST,alice,203.0.113.5:53211,10.8.0.6,1000,2000,,1700000000\r\nHEADER,ROUTING_TABLE,...\r\nROUTING_TABLE,10.8.0.6,...,...,...,1700000500\r\n")
        = some ["10.8.0.6"] ∧
      statusField (parse_status geo uuids
          "HEADER,CLIENT_LIST,...\r\nCLIENT_LIST,alice,203.0.113.5:53211,10.8.0.6,1000,2000,,1700000000\r\nHEADER,ROUTING_TABLE,...\r\nROUTING_TABLE,10.8.0.6,...,...,...,1700000500\r\n")
        "10.8.0.6" "bytes_recv" = some (.int 1000) ∧
      statusField (parse_status geo uuids
          "HEADER,CLIENT_LIST,...\r\nCLIENT_LIST,alice,203.0.113.5:53211,10.8.0.6,1000,2000,,1700000000\r\nHEADER,ROUTING_TABLE,...\r\nROUTING_TABLE,10.8.0.6,...,...,...,1700000500\r\n")
        "10.8.0.6" "bytes_sent" = some (.int 2000) ∧
      statusField (parse_status geo uuids
          "HEADER,CLIENT_LIST,...\r\nCLIENT_LIST,alice,203.0.113.5:53211,10.8.0.6,1000,2000,,1700000000\r\nHEADER,ROUTING_TABLE,...\r\nROUTING_TABLE,10.8.0.6,...,...,...,1700000500\r\n")
        "10.8.0.6" "connected_since" = some (.date (.uts 1700000000)) ∧
      statusField (parse_status geo uuids
          "HEADER,CLIENT_LIST,...\r\nCLIENT_LIST,alice,203.0.113.5:53211,10.8.0.6,1000,2000,,1700000000\r\nHEADER,ROUTING_TABLE,...\r\nROUTING_TABLE,10.8.0.6,...,...,...,1700000500\r\n")
        "10.8.0.6" "last_seen" = some (.date (.uts 1700000500)) :=
  fun _ _ => ⟨rfl, rfl, rfl, rfl, rfl⟩

/-- C2 (code bug): on a well-formed version-1 status reply with one client
row and one matching routing row, `parse_status` raises instead of
returning the claimed session keyed by the raw `remoteIP:port` field: the
Python local `remote_ip_address` is assigned only in the version-3 branch,
so the shared enrichment code hits an UnboundLocalError on the first
version-1 client row. -/
theorem c2_v1_unbound_remote_ip :
    ∀ (geo : IPAddr → Option GeoRec) (uuids : Nat → String),
      parse_status geo uuids
        "Updated,Thu Jun 18 04:23:03 2015\r\nCommon Name,Real Address,Bytes Received,Bytes Sent,Connected Since\r\nalice,203.0.113.5:53211,1000,2000,Thu Jun 18 04:23:03 2015\r\nROUTING TABLE\r\nVirtual Address,Common Name,Real Address,Last Ref\r\n10.8.0.6,alice,203.0.113.5:53211,Thu Jun 18 04:23:05 2015\r\nGLOBAL STATS\r\nEND\r\n"
        = none :=
  fun _ _ => rfl

/-- C3 (counterexample): in the version-1 dialect a routing-table line whose
key (the third field) matches no existing session makes `parse_status`
raise a KeyError rather than being ignored silently, refuting the claim for
"either dialect". -/
theorem c3_v1_orphan_route_fails :
    parse_status (fun _ => none) (fun _ => "u")
      "Virtual Address,Common Name,Real Address,Last Ref\r\n10.8.0.6,alice,203.0.113.5:53211,Thu Jun 18 04:23:05 2015\r\nGLOBAL STATS\r\nEND\r\n"
      = none :=
  rfl

/-- C5 (counterexample): the `>INFO` stripping of `send_command` is not
idempotent: removing a match can concatenate the surrounding fragments into
a new match, which a second application removes. -/
theorem c5_strip_not_idempotent :
    stripInfo (stripInfo ">IN>INFO x\r\nFO y\r\n") ≠
      stripInfo ">IN>INFO x\r\nFO y\r\n" := by
  decide

/-- C6: `parse_stats` on the exact reply
`"SUCCESS: nclients=3,bytesin=4096,bytesout=8192\r\n"` yields client count
3, bytes in 4096 and bytes out 8192. -/
theorem c6_load_stats_example :
    parse_stats "SUCCESS: nclients=3,bytesin=4096,bytesout=8192\r\n" =
      some ⟨3, 4096, 8192⟩ :=
  rfl

/-- C7 (counterexample): a completed `parse_status` run in which a
client-list row (version-1 dialect, username `alice`) has the public remote
address `8.8.8.8`, yet the geolocation collaborator is never queried — the
query log is empty — because the enrichment reads the stale
`remote_ip_address` (`10.0.0.1`, private) left by an earlier version-3 row;
`alice`'s session is even tagged `RFC1918`. -/
theorem c7_public_no_lookup_v1 :
    statusKeys (parse_status (fun _ => none) (fun _ => "u")
        "HEADER,CLIENT_LIST,h\r\nCLIENT_LIST,bob,10.0.0.1,10.8.0.2,1,2,,1700000000\r\nCommon Name,Real Address,Bytes Received,Bytes Sent,Connected Since\r\nalice,8.8.8.8:53,1000,2000,Thu Jun 18 04:23:03 2015\r\n")
      = some ["10.8.0.2", "8.8.8.8:53"] ∧
    (parse_status (fun _ => none) (fun _ => "u")
        "HEADER,CLIENT_LIST,h\r\nCLIENT_LIST,bob,10.0.0.1,10.8.0.2,1,2,,1700000000\r\nCommon Name,Real Address,Bytes Received,Bytes Sent,Connected Since\r\nalice,8.8.8.8:53,1000,2000,Thu Jun 18 04:23:03 2015\r\n").map
      Prod.snd = some [] ∧
    statusField (parse_status (fun _ => none) (fun _ => "u")
        "HEADER,CLIENT_LIST,h\r\nCLIENT_LIST,bob,10.0.0.1,10.8.0.2,1,2,,1700000000\r\nCommon Name,Real Address,Bytes Received,Bytes Sent,Connected Since\r\nalice,8.8.8.8:53,1000,2000,Thu Jun 18 04:23:03 2015\r\n")
      "8.8.8.8:53" "location" = some (.str "RFC1918") ∧
    IPAddr.is_private (.v4 (mkIPv4 8 8 8 8)) = false :=
  ⟨rfl, rfl, rfl, rfl⟩

/-- C9 (counterexample): on the reply line `OpenVPN 2.3.4` the parser
returns the line unchanged — `str.replace` removes the longer literal
`"OpenVPN Version: "`, not the token `"OpenVPN"` the claim describes — so
it differs from the specified strip-the-`OpenVPN`-prefix behaviour
(`versionSpecScan`). -/
theorem c9_version_not_token_strip :
    parse_version "OpenVPN 2.3.4\r\nEND\r\n" = some "OpenVPN 2.3.4" ∧
    versionSpecScan "OpenVPN 2.3.4\r\nEND\r\n" = some " 2.3.4" ∧
    parse_version "OpenVPN 2.3.4\r\nEND\r\n" ≠
      versionSpecScan "OpenVPN 2.3.4\r\nEND\r\n" := by
  refine ⟨rfl, rfl, ?_⟩
  decide

/-- If no `>INFO` match starts anywhere, the scan keeps every character. -/
theorem stripGo_of_no_match :
    ∀ (cs : List Char) (f : Nat), hasInfoGo cs = false → stripGo f cs = cs := by
  intro cs
  induction cs with
  | nil => intro f _; cases f <;> rfl
  | cons c cs ih =>
    intro f h
    have h' : (infoSplit? (c :: cs)).isSome = false ∧ hasInfoGo cs = false := by
      simpa [hasInfoGo] using h
    cases f with
    | zero => rfl
    | succ f =>
      have hnone : infoSplit? (c :: cs) = none := by
        cases hx : infoSplit? (c :: cs) with
        | none => rfl
        | some r => rw [hx] at h'; simp at h'
      simp [stripGo, hnone, ih f h'.2]

/-- C5 (amended): the `>INFO` stripping is idempotent exactly on inputs
whose stripped form contains no further match of the pattern — in
particular on any reply in which no occurrence of `>INFO` is formed by
concatenating the fragments around a removed line; in general a second
application can remove more (see the counterexample). -/
theorem c5_strip_idempotent_on_stable (s : String)
    (h : hasInfo (stripInfo s) = false) :
    stripInfo (stripInfo s) = stripInfo s := by
  unfold stripInfo at *
  rw [stripGo_of_no_match _ _ (by simpa [hasInfo] using h)]

/-- Witness: stripping `"a\r\n>INFO x\r\nb"` once yields a stable string,
and stripping it twice equals stripping it once. -/
theorem c5_strip_idempotent_on_stable_witness :
    hasInfo (stripInfo "a\r\n>INFO x\r\nb") = false ∧
    stripInfo (stripInfo "a\r\n>INFO x\r\nb") = stripInfo "a\r\n>INFO x\r\nb" :=
  ⟨by decide, c5_strip_idempotent_on_stable "a\r\n>INFO x\r\nb" (by decide)⟩

/-- The scanning loop of `parse_version` returns the first line starting
with `OpenVPN`, with `"OpenVPN Version: "` erased everywhere. -/
theorem versionScan_eq_find :
    ∀ ls : List String,
      versionScan ls = (ls.find? (fun l => startsWithS l "OpenVPN")).map
        (fun l => eraseAllS l "OpenVPN Version: ") := by
  intro ls
  induction ls with
  | nil => rfl
  | cons l ls ih =>
    by_cases h : startsWithS l "OpenVPN"
    · simp [versionScan, List.find?, h]
    · simp only [Bool.not_eq_true] at h
      simp [versionScan, List.find?, h, ih]

/-- C9 (amended): `parse_version` scans the reply lines in order and, for
the first line beginning with the literal `OpenVPN`, returns that line with
every occurrence of the substring `"OpenVPN Version: "` removed (`none`
when no line matches); it does not strip the `OpenVPN` token itself. -/
theorem c9_version_first_line_replace (data : String) :
    parse_version data =
      ((splitlinesS data).find? (fun l => startsWithS l "OpenVPN")).map
        (fun l => eraseAllS l "OpenVPN Version: ") :=
  versionScan_eq_find (splitlinesS data)

/-- Characterisation of the `parse_state` loop: when every data line parses,
the fold returns the record of the last data line (or the accumulator when
there is none) — each data line assigns all six entries of the state dict,
so earlier data lines are fully overwritten. -/
theorem stateFold_last :
    ∀ (ls : List String) (acc : Option StateRec),
      (∀ l ∈ ls.filter stateKeep, (stateLine? (splitS ',' l)).isSome) →
      stateFold acc ls =
        match (ls.filter stateKeep).getLast? with
        | none => some acc
        | some l => (stateLine? (splitS ',' l)).map some := by
  intro ls
  induction ls with
  | nil => intro acc _; rfl
  | cons l ls ih =>
    intro acc hall
    by_cases hk : stateKeep l = true
    · have hmem : l ∈ (l :: ls).filter stateKeep := by
        rw [List.filter_cons_of_pos hk]
        exact List.mem_cons_self _ _
      obtain ⟨r, hr⟩ := Option.isSome_iff_exists.mp (hall l hmem)
      have hsk : stateSkip ((splitS ',' l).headD "") = false := by
        have h1 := hk
        unfold stateKeep at h1
        simpa using h1
      have hstep : stateStep acc l = some (some r) := by
        simp only [stateStep]
        rw [hsk, hr]
        rfl
      have hall' : ∀ m ∈ ls.filter stateKeep, (stateLine? (splitS ',' m)).isSome := by
        intro m hm
        refine hall m ?_
        rw [List.filter_cons_of_pos hk]
        exact List.mem_cons_of_mem _ hm
      have hrec := ih (some r) hall'
      rw [List.filter_cons_of_pos hk]
      cases hfl : ls.filter stateKeep with
      | nil =>
        simp only [stateFold, hstep]
        rw [hfl] at hrec
        simpa [hr] using hrec
      | cons x xs =>
        simp only [stateFold, hstep]
        rw [hfl] at hrec
        rw [List.getLast?_cons_cons]
        simpa using hrec
    · have hsk : stateSkip ((splitS ',' l).headD "") = true := by
        have h1 := hk
        unfold stateKeep at h1
        simpa using h1
      have hstep : stateStep acc l = some acc := by
        simp only [stateStep]
        rw [hsk]
        rfl
      have hall' : ∀ m ∈ ls.filter stateKeep, (stateLine? (splitS ',' m)).isSome := by
        intro m hm
        refine hall m ?_
        rw [List.filter_cons_of_neg (by simpa using hk)]
        exact hm
      rw [List.filter_cons_of_neg (by simpa using hk)]
      simp only [stateFold, hstep]
      exact ih acc hall'

/-- C10: when every data line of a state reply parses, `parse_state` returns
the record built entirely from the last data line — each data line
overwrites all six fields set by earlier ones. -/
theorem c10_state_last_data_line (data : String) (l : String)
    (hlast : (stateDataLines data).getLast? = some l)
    (hall : ∀ m ∈ stateDataLines data, (stateLine? (splitS ',' m)).isSome) :
    parse_state data = (stateLine? (splitS ',' l)).map some := by
  unfold stateDataLines at hlast hall
  have h := stateFold_last (splitlinesS data) none hall
  rw [hlast] at h
  exact h

/-- Witness: a state reply with two data lines, where `parse_state` returns
exactly the record of the second. -/
theorem c10_state_last_data_line_witness :
    (stateDataLines "1700000000,CONNECTED,SUCCESS,10.8.0.1,\r\n1700000400,CONNECTED,SUCCESS,10.8.0.1,1.2.3.4\r\nEND\r\n").getLast?
      = some "1700000400,CONNECTED,SUCCESS,10.8.0.1,1.2.3.4" ∧
    parse_state "1700000000,CONNECTED,SUCCESS,10.8.0.1,\r\n1700000400,CONNECTED,SUCCESS,10.8.0.1,1.2.3.4\r\nEND\r\n"
      = (stateLine? (splitS ',' "1700000400,CONNECTED,SUCCESS,10.8.0.1,1.2.3.4")).map some :=
  ⟨by decide,
   c10_state_last_data_line
     "1700000000,CONNECTED,SUCCESS,10.8.0.1,\r\n1700000400,CONNECTED,SUCCESS,10.8.0.1,1.2.3.4\r\nEND\r\n"
     "1700000400,CONNECTED,SUCCESS,10.8.0.1,1.2.3.4" (by decide) (by decide)⟩

/-- Looking up the key just assigned returns the assigned value. -/
theorem aget?_aset_self {α : Type} (d : List (String × α)) (k : String) (v : α) :
    aget? (aset d k v) k = some v := by
  induction d with
  | nil => simp [aset, aget?]
  | cons p d ih =>
    obtain ⟨k0, v0⟩ := p
    by_cases h : k0 = k
    · simp [aset, aget?, h]
    · simp [aset, aget?, h, ih]

/-- A key is absent exactly when it is not among the stored keys. -/
theorem aget?_eq_none_iff {α : Type} (d : List (String × α)) (k : String) :
    aget? d k = none ↔ k ∉ d.map Prod.fst := by
  induction d with
  | nil => simp [aget?]
  | cons p d ih =>
    obtain ⟨k0, v0⟩ := p
    by_cases h : k0 = k
    · simp [aget?, h]
    · simp [aget?, h, ih, Ne.symm h]

/-- Assigning an absent key appends the pair at the end. -/
theorem aset_of_not_mem {α : Type} (d : List (String × α)) (k : String) (v : α)
    (h : k ∉ d.map Prod.fst) : aset d k v = d ++ [(k, v)] := by
  induction d with
  | nil => rfl
  | cons p d ih =>
    obtain ⟨k0, v0⟩ := p
    simp only [List.map_cons, List.mem_cons] at h
    push_neg at h
    simp [aset, Ne.symm h.1, ih h.2]

/-- Characterisation of one successful version-3 client row: the produced
record's key, remote address, fresh-token use and geolocation queries, and
the stored `remote_ip`/`location` entries of its session dict.  The
normalised address (IPv4-mapped IPv6 folded to IPv4) is what is stored,
what the private-range check inspects, and what any query passes. -/
theorem v3Client_char (geo : IPAddr → Option GeoRec) (uuids : Nat → String)
    (ctr : Nat) (u rem loc br bs ts : String)
    (ra : IPAddr) (hra : ip_address? (remoteOf rem).1 = some ra)
    (lv : DVal) (hlv : localVal? loc = some lv)
    (br' : Int) (hbr : parseIntS br = some br')
    (bs' : Int) (hbs : parseIntS bs = some bs')
    (ts' : Nat) (hts : parseNatS ts = some ts')
    (pv : DVal) (hpv : portVal? (remoteOf rem).2 = some pv) :
    ∃ d : SDict,
      v3Client geo uuids ctr u rem loc br bs ts =
        some ⟨if loc = "" then uuids ctr else loc, d, ra, loc == "",
              if (normalizeAddr ra).is_private then [] else [normalizeAddr ra]⟩ ∧
      aget? d "remote_ip" = some (.ip (normalizeAddr ra)) ∧
      ((normalizeAddr ra).is_private = true →
        aget? d "location" = some (.str "RFC1918")) := by
  simp only [v3Client, commonEnrich, hra, hlv, hbr, hbs, hts, hpv,
    Option.bind_eq_bind, Option.some_bind]
  by_cases hp : (normalizeAddr ra).is_private = true
  · simp only [hp, if_true, Option.bind_eq_bind, Option.some_bind]
    exact ⟨_, rfl, by rfl, fun _ => by rfl⟩
  · rw [Bool.not_eq_true] at hp
    simp only [hp, Bool.false_eq_true, if_false]
    cases hg : geo (normalizeAddr ra) with
    | some g =>
      simp only [Option.bind_eq_bind, Option.some_bind]
      exact ⟨_, rfl, by rfl, fun h => h.elim⟩
    | none =>
      simp only [Option.bind_eq_bind, Option.some_bind]
      exact ⟨_, rfl, by rfl, fun h => h.elim⟩

/-- A successful version-3 client row, processed in client section with
dialect 3, appends/overwrites exactly one session under the row's key,
records the parsed remote address in the loop variable, bumps the
fresh-token counter iff a token was consumed, and extends the geolocation
query log by the row's queries. -/
theorem v3_client_row_step (geo : IPAddr → Option GeoRec) (uuids : Nat → String)
    (st : StatusState) (u rem loc br bs p6 ts : String) (rest : List String)
    (hcs : st.client_section = true) (hrs : st.routes_section = false)
    (hv : st.status_version = 3)
    (out : V3Out) (hout : v3Client geo uuids st.uuid_ctr u rem loc br bs ts = some out) :
    processParts geo uuids st ("CLIENT_LIST" :: u :: rem :: loc :: br :: bs :: p6 :: ts :: rest) =
      some { st with sessions := aset st.sessions out.key out.sess,
                     remote_ip_address := some out.ra,
                     uuid_ctr := st.uuid_ctr + (if out.usedUuid then 1 else 0),
                     geo_log := st.geo_log ++ out.glog } := by
  simp only [processParts, List.headD_cons, List.get?_cons_zero, List.get?_cons_succ,
    hcs, hrs, hv, hout, Option.bind_eq_bind, Option.some_bind,
    String.reduceEq,
    show startsWithS "CLIENT_LIST" "GLOBAL" = false from rfl,
    show startsWithS "CLIENT_LIST" ">CLIENT" = false from rfl,
    Bool.false_eq_true, or_self, if_false, Bool.not_false, Bool.and_true, Bool.true_and,
    if_true, Nat.succ_ne_zero, reduceIte,
    show ((3 : Nat) = 1) = False from by decide,
    Option.pure_def, Bool.false_and, Bool.and_self, Bool.not_true]

/-- C7 (amended): for a version-3 client row (the dialect in which the row's
own remote address is parsed), when the normalised remote address is
private the session is tagged `RFC1918` and the geolocation collaborator is
not queried; when it is public the collaborator is queried exactly for that
address.  (For version-1 rows the code reads a stale `remote_ip_address`
from a preceding version-3 row, so the claim fails there — see the
counterexample.) -/
theorem c7_v3_private_no_lookup (geo : IPAddr → Option GeoRec) (uuids : Nat → String)
    (st : StatusState) (u rem loc br bs p6 ts : String) (rest : List String)
    (hcs : st.client_section = true) (hrs : st.routes_section = false)
    (hv : st.status_version = 3)
    (ra : IPAddr) (hra : ip_address? (remoteOf rem).1 = some ra)
    (lv : DVal) (hlv : localVal? loc = some lv)
    (br' : Int) (hbr : parseIntS br = some br')
    (bs' : Int) (hbs : parseIntS bs = some bs')
    (ts' : Nat) (hts : parseNatS ts = some ts')
    (pv : DVal) (hpv : portVal? (remoteOf rem).2 = some pv) :
    ∃ st' d,
      processParts geo uuids st ("CLIENT_LIST" :: u :: rem :: loc :: br :: bs :: p6 :: ts :: rest)
        = some st' ∧
      aget? st'.sessions (if loc = "" then uuids st.uuid_ctr else loc) = some d ∧
      ((normalizeAddr ra).is_private = true →
        st'.geo_log = st.geo_log ∧ aget? d "location" = some (.str "RFC1918")) ∧
      ((normalizeAddr ra).is_private = false →
        st'.geo_log = st.geo_log ++ [normalizeAddr ra]) := by
  obtain ⟨d, hout, hrip, hlocn⟩ :=
    v3Client_char geo uuids st.uuid_ctr u rem loc br bs ts ra hra lv hlv br' hbr
      bs' hbs ts' hts pv hpv
  refine ⟨_, d, v3_client_row_step geo uuids st u rem loc br bs p6 ts rest
    hcs hrs hv _ hout, ?_, ?_, ?_⟩
  · exact aget?_aset_self _ _ _
  · intro hp
    refine ⟨?_, hlocn hp⟩
    simp [hp]
  · intro hp
    simp [hp]

/-- C8: for a version-3 client row whose remote address parses as an
IPv4-mapped IPv6 address, the parser normalises it to its IPv4 form before
the private-range check and before any geolocation lookup — the session
stores the IPv4 form as `remote_ip`, the `RFC1918` tagging is decided on
the IPv4 form, and any collaborator query passes exactly the IPv4 form. -/
theorem c8_v4mapped_normalized (geo : IPAddr → Option GeoRec) (uuids : Nat → String)
    (st : StatusState) (u rem loc br bs p6 ts : String) (rest : List String)
    (hcs : st.client_section = true) (hrs : st.routes_section = false)
    (hv : st.status_version = 3)
    (a m : Nat) (hra : ip_address? (remoteOf rem).1 = some (.v6 a))
    (hmap : ipv4_mapped a = some m)
    (lv : DVal) (hlv : localVal? loc = some lv)
    (br' : Int) (hbr : parseIntS br = some br')
    (bs' : Int) (hbs : parseIntS bs = some bs')
    (ts' : Nat) (hts : parseNatS ts = some ts')
    (pv : DVal) (hpv : portVal? (remoteOf rem).2 = some pv) :
    ∃ st' d,
      processParts geo uuids st ("CLIENT_LIST" :: u :: rem :: loc :: br :: bs :: p6 :: ts :: rest)
        = some st' ∧
      aget? st'.sessions (if loc = "" then uuids st.uuid_ctr else loc) = some d ∧
      aget? d "remote_ip" = some (.ip (.v4 m)) ∧
      (IPAddr.is_private (.v4 m) = true →
        st'.geo_log = st.geo_log ∧ aget? d "location" = some (.str "RFC1918")) ∧
      (IPAddr.is_private (.v4 m) = false →
        st'.geo_log = st.geo_log ++ [IPAddr.v4 m]) := by
  have hnorm : normalizeAddr (IPAddr.v6 a) = .v4 m := by
    simp [normalizeAddr, hmap]
  obtain ⟨d, hout, hrip, hlocn⟩ :=
    v3Client_char geo uuids st.uuid_ctr u rem loc br bs ts _ hra lv hlv br' hbr
      bs' hbs ts' hts pv hpv
  rw [hnorm] at hout hrip hlocn
  refine ⟨_, d, v3_client_row_step geo uuids st u rem loc br bs p6 ts rest
    hcs hrs hv _ hout, ?_, hrip, ?_, ?_⟩
  · exact aget?_aset_self _ _ _
  · intro hp
    refine ⟨?_, hlocn hp⟩
    simp [hp]
  · intro hp
    simp [hp]

/-- Witness: a concrete version-3 client row with private remote `10.0.0.1`
is tagged `RFC1918` and triggers no geolocation query. -/
theorem c7_v3_private_no_lookup_witness :
    ∃ st' d,
      processParts (fun _ => none) (fun _ => "u")
        { initStatus with client_section := true, status_version := 3 }
        ("CLIENT_LIST" :: "alice" :: "10.0.0.1" :: "10.8.0.9" :: "1" :: "2" :: "" :: "1700000000" :: [])
        = some st' ∧
      aget? st'.sessions
        (if "10.8.0.9" = "" then (fun _ : Nat => "u")
            ({ initStatus with client_section := true, status_version := 3 } : StatusState).uuid_ctr
         else "10.8.0.9") = some d ∧
      ((normalizeAddr (.v4 (mkIPv4 10 0 0 1))).is_private = true →
        st'.geo_log =
          ({ initStatus with client_section := true, status_version := 3 } : StatusState).geo_log ∧
        aget? d "location" = some (.str "RFC1918")) ∧
      ((normalizeAddr (.v4 (mkIPv4 10 0 0 1))).is_private = false →
        st'.geo_log =
          ({ initStatus with client_section := true, status_version := 3 } : StatusState).geo_log
            ++ [normalizeAddr (.v4 (mkIPv4 10 0 0 1))]) :=
  c7_v3_private_no_lookup (fun _ => none) (fun _ => "u")
    { initStatus with client_section := true, status_version := 3 }
    "alice" "10.0.0.1" "10.8.0.9" "1" "2" "" "1700000000" []
    rfl rfl rfl
    (.v4 (mkIPv4 10 0 0 1)) (by decide)
    (.ip (.v4 (mkIPv4 10 8 0 9))) (by decide)
    1 (by decide) 2 (by decide) 1700000000 (by decide)
    (.str "") (by decide)

/-- Witness: a concrete version-3 client row whose remote is the IPv4-mapped
address `::ffff:8.8.8.8` stores `8.8.8.8` as `remote_ip` and queries the
collaborator exactly for `8.8.8.8`. -/
theorem c8_v4mapped_normalized_witness :
    ∃ st' d,
      processParts (fun _ => none) (fun _ => "u")
        { initStatus with client_section := true, status_version := 3 }
        ("CLIENT_LIST" :: "alice" :: "::ffff:8.8.8.8" :: "10.8.0.9" :: "1" :: "2" :: "" :: "1700000000" :: [])
        = some st' ∧
      aget? st'.sessions
        (if "10.8.0.9" = "" then (fun _ : Nat => "u")
            ({ initStatus with client_section := true, status_version := 3 } : StatusState).uuid_ctr
         else "10.8.0.9") = some d ∧
      aget? d "remote_ip" = some (.ip (.v4 (mkIPv4 8 8 8 8))) ∧
      (IPAddr.is_private (.v4 (mkIPv4 8 8 8 8)) = true →
        st'.geo_log =
          ({ initStatus with client_section := true, status_version := 3 } : StatusState).geo_log ∧
        aget? d "location" = some (.str "RFC1918")) ∧
      (IPAddr.is_private (.v4 (mkIPv4 8 8 8 8)) = false →
        st'.geo_log =
          ({ initStatus with client_section := true, status_version := 3 } : StatusState).geo_log
            ++ [IPAddr.v4 (mkIPv4 8 8 8 8)]) :=
  c8_v4mapped_normalized (fun _ => none) (fun _ => "u")
    { initStatus with client_section := true, status_version := 3 }
    "alice" "::ffff:8.8.8.8" "10.8.0.9" "1" "2" "" "1700000000" []
    rfl rfl rfl
    (0xffff * 2 ^ 32 + mkIPv4 8 8 8 8) (mkIPv4 8 8 8 8) (by decide) (by decide)
    (.ip (.v4 (mkIPv4 10 8 0 9))) (by decide)
    1 (by decide) 2 (by decide) 1700000000 (by decide)
    (.str "") (by decide)

/-- C3 (amended): in the version-3 dialect, a routing-table line whose key
(second field) matches no existing session leaves the parser state — in
particular the sessions mapping — completely unchanged, and does not fail;
in the version-1 dialect such a line raises a KeyError instead (see the
counterexample). -/
theorem c3_v3_orphan_route_ignored (geo : IPAddr → Option GeoRec) (uuids : Nat → String)
    (st : StatusState) (p0 k : String) (rest : List String)
    (hcs : st.client_section = false) (hrs : st.routes_section = true)
    (hv : st.status_version = 3)
    (h1 : startsWithS p0 "GLOBAL" = false) (h2 : p0 ≠ "HEADER")
    (h3 : p0 ≠ "Updated") (h4 : p0 ≠ "Common Name")
    (h5 : p0 ≠ "ROUTING TABLE") (h6 : p0 ≠ "Virtual Address")
    (h7 : startsWithS p0 ">CLIENT" = false)
    (h8 : p0 ≠ "TUN/TAP read bytes") (h9 : p0 ≠ "TUN/TAP write bytes")
    (h10 : p0 ≠ "TCP/UDP read bytes") (h11 : p0 ≠ "TCP/UDP write bytes")
    (h12 : p0 ≠ "Auth read bytes")
    (hk : amem st.sessions k = false) :
    processParts geo uuids st (p0 :: k :: rest) = some st := by
  simp only [processParts, List.headD_cons, List.get?_cons_zero, List.get?_cons_succ,
    v3Route, hcs, hrs, hv, h1, h2, h3, h4, h5, h6, h7, h8, h9, h10, h11, h12, hk,
    Option.bind_eq_bind, Option.some_bind, Option.pure_def,
    Bool.false_eq_true, if_false, reduceIte, or_self, false_or, or_false,
    Bool.false_and, Bool.and_false, Bool.true_and, Bool.and_true, Bool.not_false,
    Bool.not_true, if_true, ne_eq, not_false_iff,
    show ((3 : Nat) = 1) = False from by decide]
  rw [← hcs, ← hrs, ← hv]

/-- Witness: a concrete version-3 routing line for the unknown key
`10.8.0.99` is ignored: the parser state is returned unchanged. -/
theorem c3_v3_orphan_route_ignored_witness :
    processParts (fun _ => none) (fun _ => "u")
      { initStatus with routes_section := true, status_version := 3 }
      ("ROUTING_TABLE" :: "10.8.0.99" :: ["...", "...", "...", "1700000500"])
      = some { initStatus with routes_section := true, status_version := 3 } :=
  c3_v3_orphan_route_ignored (fun _ => none) (fun _ => "u")
    { initStatus with routes_section := true, status_version := 3 }
    "ROUTING_TABLE" "10.8.0.99" ["...", "...", "...", "1700000500"]
    rfl rfl rfl
    (by decide) (by decide) (by decide) (by decide) (by decide) (by decide)
    (by decide) (by decide) (by decide) (by decide) (by decide) (by decide)
    (by decide)

/-- A row satisfying `rowOK` processes successfully, with the key and
fresh-token use dictated by its local tunnel IP field. -/
theorem rowOK_char (geo : IPAddr → Option GeoRec) (uuids : Nat → String)
    (c : Nat) (r : V3Row) (h : rowOK r = true) :
    ∃ out, v3Client geo uuids c r.user r.remote r.localip r.brecv r.bsent r.tstamp
        = some out ∧
      out.key = (if r.localip = "" then uuids c else r.localip) ∧
      out.usedUuid = (r.localip == "") := by
  unfold rowOK at h
  simp only [Bool.and_eq_true, Option.isSome_iff_exists] at h
  obtain ⟨⟨⟨⟨⟨⟨ra, hra⟩, lv, hlv⟩, br', hbr⟩, bs', hbs⟩, ts', hts⟩, pv, hpv⟩ := h
  obtain ⟨d, hout, -, -⟩ :=
    v3Client_char geo uuids c r.user r.remote r.localip r.brecv r.bsent r.tstamp
      ra hra lv hlv br' hbr bs' hbs ts' hts pv hpv
  exact ⟨_, hout, rfl, rfl⟩

/-- One session key per row. -/
theorem expectedKeys_length (uuids : Nat → String) :
    ∀ (rows : List V3Row) (c : Nat),
      (expectedKeys uuids c rows).length = rows.length := by
  intro rows
  induction rows with
  | nil => intro c; rfl
  | cons r rs ih =>
    intro c
    by_cases hl : r.localip = "" <;> simp [expectedKeys, hl, ih]

/-- Every expected key is a nonempty local tunnel IP of some row or a fresh
token with index at least the starting counter. -/
theorem expectedKeys_mem (uuids : Nat → String) :
    ∀ (rows : List V3Row) (c : Nat) (k : String),
      k ∈ expectedKeys uuids c rows →
      k ∈ rowLocals rows ∨ ∃ m, c ≤ m ∧ k = uuids m := by
  intro rows
  induction rows with
  | nil => intro c k h; simp [expectedKeys] at h
  | cons r rs ih =>
    intro c k h
    by_cases hl : r.localip = ""
    · simp only [expectedKeys, hl, if_true, List.mem_cons] at h
      rcases h with h | h
      · exact Or.inr ⟨c, le_refl c, h⟩
      · rcases ih (c + 1) k h with h' | ⟨m, hm, hk⟩
        · left
          simp [rowLocals, List.filterMap_cons, hl]
          exact (by simpa [rowLocals] using h')
        · exact Or.inr ⟨m, Nat.le_of_succ_le hm, hk⟩
    · simp only [expectedKeys, hl, if_false, List.mem_cons] at h
      rcases h with h | h
      · left
        simp [rowLocals, List.filterMap_cons, hl, h]
      · rcases ih c k h with h' | h'
        · left
          simp only [rowLocals, List.filterMap_cons, hl, if_false]
          exact List.mem_cons_of_mem _ (by simpa [rowLocals] using h')
        · exact Or.inr h'

/-- With an injective token supply that avoids the local IPs, and pairwise
distinct nonempty local IPs, the expected keys are pairwise distinct. -/
theorem expectedKeys_nodup (uuids : Nat → String)
    (hinj : ∀ m n, uuids m = uuids n → m = n) :
    ∀ (rows : List V3Row),
      (∀ n, uuids n ∉ rowLocals rows) → (rowLocals rows).Nodup →
      ∀ c, (expectedKeys uuids c rows).Nodup := by
  intro rows
  induction rows with
  | nil => intro _ _ c; simp [expectedKeys]
  | cons r rs ih =>
    intro hfresh hnd c
    by_cases hl : r.localip = ""
    · have hloc : rowLocals (r :: rs) = rowLocals rs := by
        simp [rowLocals, List.filterMap_cons, hl]
      rw [hloc] at hfresh hnd
      simp only [expectedKeys, hl, if_true, List.nodup_cons]
      refine ⟨?_, ih hfresh hnd (c + 1)⟩
      intro hmem
      rcases expectedKeys_mem uuids rs (c + 1) (uuids c) hmem with h | ⟨m, hm, hk⟩
      · exact hfresh c h
      · have := hinj c m hk
        omega
    · have hloc : rowLocals (r :: rs) = r.localip :: rowLocals rs := by
        simp [rowLocals, List.filterMap_cons, hl]
      rw [hloc] at hfresh hnd
      rw [List.nodup_cons] at hnd
      have hfresh' : ∀ n, uuids n ∉ rowLocals rs := by
        intro n hn
        exact hfresh n (List.mem_cons_of_mem _ hn)
      simp only [expectedKeys, hl, if_false, List.nodup_cons]
      refine ⟨?_, ih hfresh' hnd.2 c⟩
      intro hmem
      rcases expectedKeys_mem uuids rs c r.localip hmem with h | ⟨m, hm, hk⟩
      · exact hnd.1 h
      · exact hfresh m (by simp [hk.symm])

/-- Lifting of `v3_client_row_step` to `processStatusLine` for a line whose
comma split is the row's fields. -/
theorem v3_line_step (geo : IPAddr → Option GeoRec) (uuids : Nat → String)
    (st : StatusState) (l : String) (r : V3Row)
    (hdone : st.done = false) (hcs : st.client_section = true)
    (hrs : st.routes_section = false) (hv : st.status_version = 3)
    (hcon : l.data.contains ',' = true)
    (hsplit1 : splitS ',' l = rowLineParts r)
    (out : V3Out)
    (hout : v3Client geo uuids st.uuid_ctr r.user r.remote r.localip r.brecv r.bsent r.tstamp = some out) :
    processStatusLine geo uuids st l =
      some { st with sessions := aset st.sessions out.key out.sess,
                     remote_ip_address := some out.ra,
                     uuid_ctr := st.uuid_ctr + (if out.usedUuid then 1 else 0),
                     geo_log := st.geo_log ++ out.glog } := by
  unfold processStatusLine
  rw [if_neg (show ¬ st.done = true by simp [hdone]), if_pos hcon, hsplit1]
  exact v3_client_row_step geo uuids st r.user r.remote r.localip r.brecv
    r.bsent "" r.tstamp [] hcs hrs hv out hout

/-- The expected keys of a row list start with the first row's key and
continue with the counter bumped iff that row consumed a token. -/
theorem expectedKeys_cons_key (uuids : Nat → String) (st : StatusState) (r : V3Row) (rs : List V3Row)
    (out : V3Out)
    (hkey : out.key = (if r.localip = "" then uuids st.uuid_ctr else r.localip))
    (huuid : out.usedUuid = (r.localip == "")) :
    expectedKeys uuids st.uuid_ctr (r :: rs) =
      out.key :: expectedKeys uuids (st.uuid_ctr + (if out.usedUuid then 1 else 0)) rs := by
  rw [hkey, huuid]
  by_cases hl : r.localip = ""
  · simp [expectedKeys, hl]
  · simp [expectedKeys, hl]

/-- Main induction for C4: folding the status parser over matching client
lines appends exactly one session per row, keyed as `expectedKeys`
describes, provided all keys (existing and expected) are pairwise
distinct. -/
theorem v3_fold_keys (geo : IPAddr → Option GeoRec) (uuids : Nat → String) :
    ∀ (rows : List V3Row) (lines : List String) (st : StatusState),
      st.done = false → st.client_section = true → st.routes_section = false →
      st.status_version = 3 →
      linesMatch lines rows = true →
      (∀ r ∈ rows, rowOK r = true) →
      (st.sessions.map Prod.fst ++ expectedKeys uuids st.uuid_ctr rows).Nodup →
      ∃ st', statusFold geo uuids st lines = some st' ∧
        st'.sessions.map Prod.fst =
          st.sessions.map Prod.fst ++ expectedKeys uuids st.uuid_ctr rows := by
  intro rows
  induction rows with
  | nil =>
    intro lines st _ _ _ _ hm _ _
    cases lines with
    | nil => exact ⟨st, rfl, by simp [expectedKeys]⟩
    | cons l ls => simp [linesMatch] at hm
  | cons r rs ih =>
    intro lines st hdone hcs hrs hv hm hok hnd
    cases lines with
    | nil => simp [linesMatch] at hm
    | cons l ls =>
      simp only [linesMatch, Bool.and_eq_true] at hm
      obtain ⟨⟨hcon, hsplit⟩, hm1⟩ := hm
      have hsplit1 : splitS ',' l = rowLineParts r := eq_of_beq hsplit
      obtain ⟨out, hout, hkey, huuid⟩ :=
        rowOK_char geo uuids st.uuid_ctr r (hok r (List.mem_cons_self _ _))
      have hstep := v3_line_step geo uuids st l r hdone hcs hrs hv hcon hsplit1 out hout
      have hkeyhead := expectedKeys_cons_key uuids st r rs out hkey huuid
      rw [hkeyhead] at hnd
      have hkeyfresh : out.key ∉ st.sessions.map Prod.fst := by
        have hdisj := (List.nodup_append.mp hnd).2.2
        intro hmem
        exact hdisj hmem (List.mem_cons_self _ _)
      have hsess1 : (aset st.sessions out.key out.sess).map Prod.fst =
          st.sessions.map Prod.fst ++ [out.key] := by
        rw [aset_of_not_mem _ _ _ hkeyfresh]
        simp
      have hnd1 : ((aset st.sessions out.key out.sess).map Prod.fst ++
          expectedKeys uuids (st.uuid_ctr + (if out.usedUuid then 1 else 0)) rs).Nodup := by
        rw [hsess1]
        rw [List.append_cons] at hnd
        exact hnd
      obtain ⟨st', hfold1, hkeys1⟩ := ih ls
        { st with sessions := aset st.sessions out.key out.sess,
                  remote_ip_address := some out.ra,
                  uuid_ctr := st.uuid_ctr + (if out.usedUuid then 1 else 0),
                  geo_log := st.geo_log ++ out.glog }
        hdone hcs hrs hv hm1 (fun x hx => hok x (List.mem_cons_of_mem _ hx)) hnd1
      refine ⟨st', ?_, ?_⟩
      · simp only [statusFold, hstep]
        exact hfold1
      · rw [hkeys1, hkeyhead]
        show (aset st.sessions out.key out.sess).map Prod.fst ++ _ = _
        rw [hsess1, List.append_assoc]
        rfl

/-- C4: for a version-3 status reply (client-list header followed by one
well-formed client row per entry), with the fresh-token supply injective
and avoiding the rows' local tunnel IPs (the guarantee `uuid4` provides),
and the nonempty local tunnel IPs pairwise distinct, the parser yields
exactly one session per row: a row with nonempty local tunnel IP is keyed
by that IP, a row with empty local IP by the next fresh token, all keys
are pairwise distinct, and no record is dropped or overwritten. -/
theorem c4_v3_session_keys (geo : IPAddr → Option GeoRec) (uuids : Nat → String)
    (lines : List String) (rows : List V3Row)
    (hm : linesMatch lines rows = true)
    (hok : ∀ r ∈ rows, rowOK r = true)
    (hinj : ∀ m n, uuids m = uuids n → m = n)
    (hfresh : ∀ n, uuids n ∉ rowLocals rows)
    (hnd : (rowLocals rows).Nodup) :
    ∃ st', statusFold geo uuids initStatus ("HEADER,CLIENT_LIST,hdr" :: lines) = some st' ∧
      st'.sessions.map Prod.fst = expectedKeys uuids 0 rows ∧
      (expectedKeys uuids 0 rows).Nodup ∧
      st'.sessions.length = rows.length := by
  have hkeysnd := expectedKeys_nodup uuids hinj rows hfresh hnd 0
  have hdr : processStatusLine geo uuids initStatus "HEADER,CLIENT_LIST,hdr" =
      some { initStatus with status_version := 3, client_section := true } := rfl
  obtain ⟨st', hfold, hkeys⟩ := v3_fold_keys geo uuids rows lines
      { initStatus with status_version := 3, client_section := true }
      rfl rfl rfl rfl hm hok (by simpa using hkeysnd)
  refine ⟨st', ?_, by simpa using hkeys, hkeysnd, ?_⟩
  · simp only [statusFold, hdr]
    exact hfold
  · have hlen := congrArg List.length hkeys
    simp only [List.length_map, List.length_append, List.length_map] at hlen
    simpa [expectedKeys_length, initStatus] using hlen

/-- Witness: a two-row reply, one row keyed by its local IP `10.8.0.6` and
one by a fresh token, giving two distinct session keys. -/
theorem c4_v3_session_keys_witness :
    ∃ st', statusFold (fun _ => none) (fun n => String.mk (List.replicate (n + 1) 'u'))
        initStatus
        ("HEADER,CLIENT_LIST,hdr" ::
          ["CLIENT_LIST,alice,203.0.113.5:53211,10.8.0.6,1000,2000,,1700000000",
           "CLIENT_LIST,bob,8.8.8.8,,1,2,,1700000001"]) = some st' ∧
      st'.sessions.map Prod.fst =
        expectedKeys (fun n => String.mk (List.replicate (n + 1) 'u')) 0
          [⟨"alice", "203.0.113.5:53211", "10.8.0.6", "1000", "2000", "1700000000"⟩,
           ⟨"bob", "8.8.8.8", "", "1", "2", "1700000001"⟩] ∧
      (expectedKeys (fun n => String.mk (List.replicate (n + 1) 'u')) 0
          [⟨"alice", "203.0.113.5:53211", "10.8.0.6", "1000", "2000", "1700000000"⟩,
           ⟨"bob", "8.8.8.8", "", "1", "2", "1700000001"⟩]).Nodup ∧
      st'.sessions.length =
        ([⟨"alice", "203.0.113.5:53211", "10.8.0.6", "1000", "2000", "1700000000"⟩,
          ⟨"bob", "8.8.8.8", "", "1", "2", "1700000001"⟩] : List V3Row).length :=
  c4_v3_session_keys (fun _ => none) (fun n => String.mk (List.replicate (n + 1) 'u'))
    ["CLIENT_LIST,alice,203.0.113.5:53211,10.8.0.6,1000,2000,,1700000000",
     "CLIENT_LIST,bob,8.8.8.8,,1,2,,1700000001"]
    [⟨"alice", "203.0.113.5:53211", "10.8.0.6", "1000", "2000", "1700000000"⟩,
     ⟨"bob", "8.8.8.8", "", "1", "2", "1700000001"⟩]
    (by decide) (by decide)
    (by
      intro m n h
      have hd := congrArg String.data h
      have hl := congrArg List.length hd
      simp only [List.length_replicate] at hl
      omega)
    (by
      intro n h
      simp only [rowLocals, List.filterMap_cons, List.filterMap_nil,
        String.reduceEq, reduceIte, List.mem_cons, List.mem_singleton,
        List.not_mem_nil, or_false] at h
      have hd := congrArg String.data h
      have hl := congrArg List.length hd
      have h8 : ("10.8.0.6".data).length = 8 := rfl
      rw [List.length_replicate, h8] at hl
      have hn : n = 7 := by omega
      subst hn
      exact absurd h (by decide))
    (by decide)
